import Mathlib

/-!
# A shallow embedding of `radical.utils.heartbeat`

This file models the `Heartbeat` class of
`src/radical/utils/heartbeat.py` and proves properties of the model.

Modelling choices:

* Python wall-clock times (`time.time()` returns a float) are modelled as
  rationals (`ℚ`).
* Python `None` is modelled by `Option.none`; a Python value that may be a
  string or a bool (dictionary keys of `self._tstamps`: uids are strings,
  but the watch loop can store the literal `True` as a key) is modelled by
  the inductive type `Key`.
* The timestamp dictionary `self._tstamps` is modelled as an association
  list with the usual Python `dict` semantics: insertion order is kept,
  `d[k] = v` overwrites in place, `del d[k]` removes the entry.
* Python exceptions are modelled with `Except PyErr`; code that cannot
  raise is a plain function.
* Side effects of the watcher loop (log calls, `os.kill`, `time.sleep`)
  are modelled as an emitted trace of `Effect` values.
-/

namespace Heartbeat

/-- A Python value used as a key of `self._tstamps`: normally a uid
string, but the recovery branch of `_watch` stores `self._term_cb`'s
return value (and the silent-recovery branch stores the literal `True`)
as a key. -/
inductive Key where
  | str (s : String)
  | bool (b : Bool)
deriving DecidableEq, Repr

/-- The Python exceptions the modelled code can raise. -/
inductive PyErr where
  | valueError
  | typeError
  | nameError
deriving DecidableEq, Repr

/-- The timestamp table `self._tstamps`. -/
abbrev Table := List (Key × ℚ)

/-- `d.get(k)`: the value stored under `k`, or `None`. -/
def dictGet : Table → Key → Option ℚ
  | [], _ => none
  | p :: rest, k => if p.1 = k then some p.2 else dictGet rest k

/-- `d[k] = v`: overwrite in place, or append a new entry. -/
def dictSet : Table → Key → ℚ → Table
  | [], k, v => [(k, v)]
  | p :: rest, k, v => if p.1 = k then (k, v) :: rest else p :: dictSet rest k v

/-- `del d[k]`: remove the entry for `k`. -/
def dictDel : Table → Key → Table
  | [], _ => []
  | p :: rest, k => if p.1 = k then dictDel rest k else p :: dictDel rest k

/-- The validation performed by `Heartbeat.__init__` (heartbeat.py lines
89-91): `if timeout and interval > timeout: raise ValueError(...)`.  A
Python float is truthy iff it is nonzero, and `None` is falsy, so the
guard fires exactly when `timeout` is a nonzero number and
`interval > timeout`.  Every other statement of `__init__` is an
unconditional field assignment and always succeeds. -/
def init (timeout : Option ℚ) (interval : ℚ) : Except PyErr Unit :=
  match timeout with
  | none => Except.ok ()
  | some t => if t ≠ 0 ∧ interval > t then Except.error PyErr.valueError else Except.ok ()

/-- The argument passed as `monitor` to `register_monitor`: either a
(non-string) callable or a string (the three class constants
`PROCESS_MONITOR`, `FILE_REMOVAL_MONITOR`, `FILE_CREATION_MONITOR` are
the strings `'process_monitor'` etc.). -/
inductive MonitorArg where
  | callable
  | strconst (s : String)
deriving DecidableEq, Repr

/-- `Heartbeat.register_monitor(uid, monitor, data)` (heartbeat.py lines
112-120), acting on the registry list `self._monitors`.  The body is
`if isinstance(monitor, str): if monitor == PROCESS_MONITOR: ...`.
`PROCESS_MONITOR` is a bare name: the class attributes are not in the
method's scope, so evaluating it raises `NameError` whenever `monitor`
is a string, before any comparison happens.  When `monitor` is not a
string the whole body is skipped and the method returns `None` without
touching `self._monitors` (or any other attribute). -/
def register_monitor (monitors : List (Key × MonitorArg)) (_uid : Key)
    (monitor : MonitorArg) : Except PyErr (List (Key × MonitorArg)) :=
  match monitor with
  | MonitorArg.strconst _ => Except.error PyErr.nameError
  | MonitorArg.callable => Except.ok monitors

/-- `Heartbeat.beat(uid, timestamp)` (heartbeat.py lines 227-237):
`if not timestamp: timestamp = time.time()` (falsy: `None` and `0`),
`if not uid: uid = 'default'` (falsy: `None` and `''`), then
`self._tstamps[uid] = timestamp`.  `now` stands for `time.time()`. -/
def beat (d : Table) (now : ℚ) (uid : Option String) (timestamp : Option ℚ) : Table :=
  let t : ℚ :=
    match timestamp with
    | none => now
    | some v => if v = 0 then now else v
  let u : String :=
    match uid with
    | none => "default"
    | some s => if s = "" then "default" else s
  dictSet d (Key.str u) t

/-- The two signals `_watch` sends with `os.kill`. -/
inductive Sig where
  | sigterm
  | sigkill
deriving DecidableEq, Repr

/-- The externally observable actions of one iteration of `_watch`:
log calls, the self-heartbeat callback, sleeps and signals. -/
inductive Effect where
  | sleepFor (t : ℚ)
  | beatCb
  | warnNeverSeen (uid : Key)
  | warnTimeout (uid : Key)
  | warnFatal (uid : Key) (pid : Nat)
  | kill (pid : Nat) (s : Sig)
  | infoRecover (old next : Key)
deriving DecidableEq, Repr

/-- The configuration fields of a `Heartbeat` instance that `_watch`
reads: `self._timeout`, `self._interval`, whether `self._beat_cb` is
set, `self._term_cb`, and `self._pid` (recorded at construction).
`self._log` is always set by `__init__`, so it is not a field here.
The recovery callback takes the failing uid and returns a Python value
(`None`, or a replacement key). -/
structure Config where
  timeout : Option ℚ
  interval : ℚ
  hasBeatCb : Bool
  termCb : Option (Key → Option Key)
  pid : Nat

/-- The mutable state of a `Heartbeat` instance: the timestamp table
`self._tstamps` and the registry list `self._monitors` (initialised to
`list()` by `__init__`). -/
structure HBState where
  tstamps : Table
  monitors : List (Key × MonitorArg)

/-- The body of `_watch`'s `for uid in uids:` loop for one uid
(heartbeat.py lines 178-222), given the current table `st`.  `now` is
the `time.time()` value taken at the top of the tick; `clk c` is the
value returned by the `c`-th further call to `time.time()` during the
tick (the recovery branch makes one such call), and the returned `Nat`
is the updated call counter.

* `last = self._tstamps.get(uid)`; if `None`, warn and `continue`.
* `now - last > self._timeout`: when `self._timeout` is `None` this
  comparison of a float with `None` raises `TypeError`.
* on timeout: warn; `ret = None`; if `self._timeout` is truthy
  (nonzero) invoke `self._term_cb` when set, else `ret = True`;
* `ret is None`: warn fatal, `os.kill(SIGTERM)`, `time.sleep(1)`,
  `os.kill(SIGKILL)`;
* otherwise: log recovery, delete the old entry, store `time.time()`
  under the key `ret`. -/
def tickUid (cfg : Config) (now : ℚ) (clk : Nat → ℚ) (st : Table) (c : Nat)
    (uid : Key) : Except PyErr (Table × List Effect × Nat) :=
  match dictGet st uid with
  | none => Except.ok (st, [Effect.warnNeverSeen uid], c)
  | some last =>
    match cfg.timeout with
    | none => Except.error PyErr.typeError
    | some tmo =>
      if now - last > tmo then
        let ret : Option Key :=
          if tmo = 0 then some (Key.bool true)
          else
            match cfg.termCb with
            | none => none
            | some cb => cb uid
        match ret with
        | none =>
            Except.ok (st,
              [Effect.warnTimeout uid, Effect.warnFatal uid cfg.pid,
               Effect.kill cfg.pid Sig.sigterm, Effect.sleepFor 1,
               Effect.kill cfg.pid Sig.sigkill], c)
        | some v =>
            Except.ok (dictSet (dictDel st uid) v (clk c),
              [Effect.warnTimeout uid, Effect.infoRecover uid v], c + 1)
      else Except.ok (st, [], c)

/-- `_watch`'s scan over the snapshot `uids` of table keys, threading
the table, the effect trace and the `time.time()` call counter. -/
def scanUids (cfg : Config) (now : ℚ) (clk : Nat → ℚ) :
    List Key → Table → List Effect → Nat → Except PyErr (Table × List Effect × Nat)
  | [], st, effs, c => Except.ok (st, effs, c)
  | uid :: rest, st, effs, c =>
    match tickUid cfg now clk st c uid with
    | Except.error e => Except.error e
    | Except.ok (st', effs', c') => scanUids cfg now clk rest st' (effs ++ effs') c'

/-- One iteration of `_watch`'s `while` loop (heartbeat.py lines
166-222): sleep for `interval`, take `now = time.time()`, invoke the
self-heartbeat callback when set, snapshot the table's keys, then scan
them with `tickUid`. -/
def tick (cfg : Config) (now : ℚ) (clk : Nat → ℚ) (st : Table) :
    Except PyErr (Table × List Effect) :=
  let pre := Effect.sleepFor cfg.interval ::
    (if cfg.hasBeatCb then [Effect.beatCb] else [])
  match scanUids cfg now clk (st.map Prod.fst) st [] 0 with
  | Except.error e => Except.error e
  | Except.ok (st', effs, _) => Except.ok (st', pre ++ effs)

/-- One iteration of `_watch` acting on the full instance state.
`_watch` never reads or writes `self._monitors`, so the registry is
passed through unchanged. -/
def tickFull (cfg : Config) (now : ℚ) (clk : Nat → ℚ) (s : HBState) :
    Except PyErr (HBState × List Effect) :=
  match tick cfg now clk s.tstamps with
  | Except.error e => Except.error e
  | Except.ok (ts', effs) => Except.ok (⟨ts', s.monitors⟩, effs)

/-- Truthiness of `self._tstamps.get(uid)` as `wait_startup` tests it
in `[uid for uid in uids if self._tstamps.get(uid)]`: a missing entry
(`None`) and a stored `0` are falsy, any other stored number truthy. -/
def tsTruthy (d : Table) (u : String) : Bool :=
  match dictGet d (Key.str u) with
  | none => false
  | some v => decide (v ≠ 0)

/-- `if timeout: if time.time() - start > timeout: break` — the break
fires iff `timeout` is truthy (set and nonzero) and exceeded. -/
def waitTimeoutHit (timeout : Option ℚ) (elapsed : ℚ) : Bool :=
  match timeout with
  | none => false
  | some t => decide (t ≠ 0) && decide (elapsed > t)

/-- What one iteration of `wait_startup`'s `while True:` loop decides. -/
inductive WaitOutcome where
  | allSeen
  | timedOut (nok : List String)
  | keepWaiting
deriving DecidableEq, Repr

/-- One iteration of `wait_startup`'s polling loop (heartbeat.py lines
274-290) against the table `d`, `elapsed` seconds after the call:
compute `ok` and `nok`, break with success when every requested uid is
seen, break with `nok` when the timeout has elapsed, else sleep and go
around.  After the loop the code returns `None` in the first case and
recomputes (the same) `nok` in the second. -/
def waitPoll (d : Table) (uids : List String) (timeout : Option ℚ)
    (elapsed : ℚ) : WaitOutcome :=
  if (uids.filter (fun u => tsTruthy d u)).length = uids.length then
    WaitOutcome.allSeen
  else if waitTimeoutHit timeout elapsed then
    WaitOutcome.timedOut
      (uids.filter (fun u => decide (u ∉ uids.filter (fun w => tsTruthy d w))))
  else WaitOutcome.keepWaiting

/-- `if not uids: uids = ['default']` followed by `as_list` (which is
the identity on a list). -/
def wait_uids (uids : List String) : List String :=
  if uids = [] then ["default"] else uids

/-- `Heartbeat.wait_startup(uids, timeout)` (heartbeat.py lines
261-298) run for at most `fuel` polls starting at poll index `k`, with
`el i` the elapsed wall-clock time at poll `i` (the table `d` is read
under the lock and modelled as fixed for the wait).  `none` means the
fuel ran out with the loop still polling; `some r` means the call
returned `r` (`r = none` is Python's `None`, returned when all uids
were seen; `r = some nok` is the list of still-unseen uids returned
when the timeout elapsed first). -/
def wait_startup_loop (d : Table) (uids : List String) (timeout : Option ℚ)
    (el : Nat → ℚ) : Nat → Nat → Option (Option (List String))
  | 0, _ => none
  | fuel + 1, k =>
    match waitPoll d uids timeout (el k) with
    | WaitOutcome.allSeen => some none
    | WaitOutcome.timedOut nok => some (some nok)
    | WaitOutcome.keepWaiting => wait_startup_loop d uids timeout el fuel (k + 1)

/-- The two-stage escalation trace `_watch` emits for an unrecoverable
uid: fatal log, `SIGTERM` to the owning process, the one-second grace
sleep, `SIGKILL` to the same process. -/
def escalation (cfg : Config) (uid : Key) : List Effect :=
  [Effect.warnTimeout uid, Effect.warnFatal uid cfg.pid,
   Effect.kill cfg.pid Sig.sigterm, Effect.sleepFor 1,
   Effect.kill cfg.pid Sig.sigkill]

end Heartbeat

namespace Heartbeat

theorem dictGet_dictSet_self (d : Table) (k : Key) (v : ℚ) :
    dictGet (dictSet d k v) k = some v := by
  induction d with
  | nil => simp [dictGet, dictSet]
  | cons p rest ih =>
    by_cases h : p.1 = k
    · simp [dictGet, dictSet, h]
    · simp [dictGet, dictSet, h, ih]

theorem dictGet_dictSet_ne (d : Table) (k : Key) (v : ℚ) (k' : Key) (h : k' ≠ k) :
    dictGet (dictSet d k v) k' = dictGet d k' := by
  have h' : ¬ (k = k') := fun hk => h hk.symm
  induction d with
  | nil => simp [dictGet, dictSet, h']
  | cons p rest ih =>
    by_cases hp : p.1 = k
    · subst hp
      simp [dictGet, dictSet, h']
    · by_cases hp' : p.1 = k'
      · simp [dictGet, dictSet, hp, hp', h]
      · simp [dictGet, dictSet, hp, hp', ih]

theorem dictGet_dictDel_self (d : Table) (k : Key) :
    dictGet (dictDel d k) k = none := by
  induction d with
  | nil => simp [dictGet, dictDel]
  | cons p rest ih =>
    by_cases h : p.1 = k
    · simp [dictDel, h, ih]
    · simp [dictGet, dictDel, h, ih]

theorem dictGet_dictDel_ne (d : Table) (k k' : Key) (h : k' ≠ k) :
    dictGet (dictDel d k) k' = dictGet d k' := by
  have h' : ¬ (k = k') := fun hk => h hk.symm
  induction d with
  | nil => simp [dictDel]
  | cons p rest ih =>
    by_cases hp : p.1 = k
    · subst hp
      simp [dictGet, dictDel, h', ih]
    · simp [dictGet, dictDel, hp, ih]

/-- A value `dictGet` returns is a value stored in the table. -/
theorem dictGet_mem (d : Table) (k : Key) (v : ℚ) (h : dictGet d k = some v) :
    (k, v) ∈ d := by
  induction d with
  | nil => simp [dictGet] at h
  | cons p rest ih =>
    by_cases hp : p.1 = k
    · simp only [dictGet, if_pos hp] at h
      obtain ⟨p1, p2⟩ := p
      obtain rfl : p1 = k := hp
      obtain rfl : p2 = v := by simpa using h
      exact List.mem_cons_self _ _
    · simp only [dictGet, if_neg hp] at h
      exact List.mem_cons_of_mem _ (ih h)

/-- C9: constructing with `timeout = 0` succeeds for every interval:
the guard `if timeout and interval > timeout` never fires because `0`
is falsy in Python. -/
theorem init_zero_timeout_always_succeeds (interval : ℚ) :
    init (some 0) interval = Except.ok () := by
  simp [init]

/-- C4 counterexample: `timeout = 0` is a set timeout and `interval = 1`
exceeds it, yet construction succeeds, so "fails if and only if timeout
is set and interval > timeout" is false in the only-if direction. -/
theorem init_zero_timeout_cex :
    init (some 0) 1 = Except.ok () ∧ (1 : ℚ) > 0 := by
  constructor
  · simp [init]
  · norm_num

/-- C4 (amended): construction raises `ValueError` iff `timeout` is set
to a nonzero value and `interval > timeout`; in every other
configuration it succeeds. -/
theorem init_fails_iff_nonzero_timeout_exceeded (timeout : Option ℚ) (interval : ℚ) :
    (init timeout interval = Except.error PyErr.valueError
      ↔ ∃ t, timeout = some t ∧ t ≠ 0 ∧ interval > t)
    ∧ (init timeout interval = Except.ok ()
      ↔ ¬ ∃ t, timeout = some t ∧ t ≠ 0 ∧ interval > t) := by
  cases timeout with
  | none => simp [init]
  | some t =>
    by_cases h : t ≠ 0 ∧ interval > t
    · simp [init, h, h.1, h.2]
    · constructor
      · simp only [init, if_neg h]
        constructor
        · intro hc; exact absurd hc (by simp)
        · rintro ⟨t', ht', h1, h2⟩
          rw [Option.some_inj] at ht'
          subst ht'
          exact absurd ⟨h1, h2⟩ h
      · simp only [init, if_neg h]
        constructor
        · rintro - ⟨t', ht', h1, h2⟩
          rw [Option.some_inj] at ht'
          subst ht'
          exact absurd ⟨h1, h2⟩ h
        · intro; trivial

/-- C3: `register_monitor` never registers anything.  Called with any of
the three built-in constants (or any other string) it raises `NameError`
(the comparison `monitor == PROCESS_MONITOR` reads a name that is not in
scope); called with a callable it silently does nothing, leaving the
registry exactly as it was, so no entry is ever inserted or replaced. -/
theorem register_monitor_never_registers (monitors : List (Key × MonitorArg))
    (uid : Key) :
    (∀ s, register_monitor monitors uid (MonitorArg.strconst s)
        = Except.error PyErr.nameError)
    ∧ register_monitor monitors uid MonitorArg.callable = Except.ok monitors := by
  exact ⟨fun _ => rfl, rfl⟩

/-- C10: `beat` coerces falsy arguments to defaults: a falsy `uid`
(`None` or `''`) is replaced by `'default'`, a falsy `timestamp` (`None`
or `0`) is replaced by the current time `now`; a truthy timestamp is
stored verbatim under a truthy uid.  The call always succeeds (it is a
total function of the table). -/
theorem beat_coerces_falsy_arguments (d : Table) (now : ℚ)
    (uid : Option String) (timestamp : Option ℚ) :
    ((uid = none ∨ uid = some "") → (timestamp = none ∨ timestamp = some 0) →
        beat d now uid timestamp = dictSet d (Key.str "default") now)
    ∧ ((uid = none ∨ uid = some "") → ∀ v, timestamp = some v → v ≠ 0 →
        beat d now uid timestamp = dictSet d (Key.str "default") v)
    ∧ (∀ s, uid = some s → s ≠ "" → (timestamp = none ∨ timestamp = some 0) →
        beat d now uid timestamp = dictSet d (Key.str s) now)
    ∧ (∀ s v, uid = some s → s ≠ "" → timestamp = some v → v ≠ 0 →
        beat d now uid timestamp = dictSet d (Key.str s) v) := by
  refine ⟨?_, ?_, ?_, ?_⟩
  · rintro (rfl | rfl) (rfl | rfl) <;> simp [beat]
  · rintro (rfl | rfl) v rfl hv <;> simp [beat, hv]
  · rintro s rfl hs (rfl | rfl) <;> simp [beat, hs]
  · rintro s v rfl hs rfl hv; simp [beat, hs, hv]

/-- Helper: the unrecoverable branch of `tickUid`: a truthy timeout has
elapsed and either no recovery callback is set or it returns `None`. -/
theorem tickUid_unrecoverable (cfg : Config) (now : ℚ) (clk : Nat → ℚ) (st : Table)
    (c : Nat) (uid : Key) (tmo last : ℚ)
    (htmo : cfg.timeout = some tmo) (hnz : tmo ≠ 0)
    (hlast : dictGet st uid = some last) (hel : now - last > tmo)
    (hcb : cfg.termCb = none ∨ ∃ cb, cfg.termCb = some cb ∧ cb uid = none) :
    tickUid cfg now clk st c uid = Except.ok (st, escalation cfg uid, c) := by
  rcases hcb with hcb | ⟨cb, hcb, hret⟩
  · simp [tickUid, hlast, htmo, if_pos hel, hnz, hcb, escalation]
  · simp [tickUid, hlast, htmo, if_pos hel, hnz, hcb, hret, escalation]

/-- C5 counterexample: with a set-but-zero timeout, a uid's timeout is
detected (the timeout warning is logged) while no recovery callback is
configured, yet no escalation happens: `if self._timeout:` is falsy, so
`ret = True` and the code silently "recovers", replacing the uid's
entry with one keyed by the literal `True` — the trace holds no kill,
no grace sleep and no fatal log. -/
theorem unrecoverable_zero_timeout_cex :
    tickUid ⟨some 0, 1, false, none, 7⟩ 10 (fun _ => 11)
        [(Key.str "u", 0)] 0 (Key.str "u")
      = Except.ok ([(Key.bool true, 11)],
          [Effect.warnTimeout (Key.str "u"),
           Effect.infoRecover (Key.str "u") (Key.bool true)], 1) := by
  norm_num [tickUid, dictGet, dictDel, dictSet]

/-- C5 (amended): when a uid's nonzero (truthy) timeout has elapsed and
no recovery callback is configured, or the callback returns `None`,
`_watch` performs exactly one two-stage escalation for that uid: it
logs the fatal condition, sends `SIGTERM` to the owning process, sleeps
the one-second grace period, then sends `SIGKILL` to the same process,
in that order, and the table is left unchanged.  (With a zero timeout
the detected timeout is silently "recovered" instead; see the
counterexample above.) -/
theorem unrecoverable_timeout_two_stage_escalation (cfg : Config) (now : ℚ)
    (clk : Nat → ℚ) (st : Table) (c : Nat) (uid : Key) (tmo last : ℚ)
    (htmo : cfg.timeout = some tmo) (hnz : tmo ≠ 0)
    (hlast : dictGet st uid = some last) (hel : now - last > tmo)
    (hcb : cfg.termCb = none ∨ ∃ cb, cfg.termCb = some cb ∧ cb uid = none) :
    tickUid cfg now clk st c uid
      = Except.ok (st,
          [Effect.warnTimeout uid, Effect.warnFatal uid cfg.pid,
           Effect.kill cfg.pid Sig.sigterm, Effect.sleepFor 1,
           Effect.kill cfg.pid Sig.sigkill], c) :=
  tickUid_unrecoverable cfg now clk st c uid tmo last htmo hnz hlast hel hcb

/-- Witness for C5 at a concrete input: timeout 5, last heartbeat at 0,
now 10, no recovery callback. -/
theorem unrecoverable_timeout_two_stage_escalation_witness :
    tickUid ⟨some 5, 1, false, none, 7⟩ 10 (fun _ => 10)
        [(Key.str "u", 0)] 0 (Key.str "u")
      = Except.ok ([(Key.str "u", 0)],
          [Effect.warnTimeout (Key.str "u"), Effect.warnFatal (Key.str "u") 7,
           Effect.kill 7 Sig.sigterm, Effect.sleepFor 1,
           Effect.kill 7 Sig.sigkill], 0) :=
  unrecoverable_timeout_two_stage_escalation ⟨some 5, 1, false, none, 7⟩ 10
    (fun _ => 10) [(Key.str "u", 0)] 0 (Key.str "u") 5 0 rfl (by norm_num)
    (by simp [dictGet]) (by norm_num) (Or.inl rfl)

/-- C6: when the recovery callback returns a replacement uid `v ≠ u` for
the timed-out uid `u`, the tick deletes `u`'s entry and stores the
recovery-moment timestamp (`time.time()` at the recovery, `clk c`) under
`v`: afterwards `u` is absent and `v`'s clock starts fresh. -/
theorem recovery_replaces_uid_and_restarts_clock (cfg : Config) (now : ℚ)
    (clk : Nat → ℚ) (st : Table) (c : Nat) (u v : Key) (cb : Key → Option Key)
    (tmo last : ℚ)
    (htmo : cfg.timeout = some tmo) (hnz : tmo ≠ 0)
    (hlast : dictGet st u = some last) (hel : now - last > tmo)
    (hcb : cfg.termCb = some cb) (hret : cb u = some v) (hvu : v ≠ u) :
    tickUid cfg now clk st c u
      = Except.ok (dictSet (dictDel st u) v (clk c),
          [Effect.warnTimeout u, Effect.infoRecover u v], c + 1)
    ∧ dictGet (dictSet (dictDel st u) v (clk c)) u = none
    ∧ dictGet (dictSet (dictDel st u) v (clk c)) v = some (clk c) := by
  refine ⟨?_, ?_, ?_⟩
  · simp [tickUid, hlast, htmo, if_pos hel, hnz, hcb, hret]
  · rw [dictGet_dictSet_ne _ _ _ _ (fun h => hvu h.symm), dictGet_dictDel_self]
  · exact dictGet_dictSet_self _ _ _

/-- Witness for C6 at a concrete input: `u` timed out at now = 10, the
callback replaces it with `v`, and the recovery call to `time.time()`
returns 11. -/
theorem recovery_replaces_uid_and_restarts_clock_witness :
    tickUid ⟨some 5, 1, false, some (fun _ => some (Key.str "v")), 7⟩ 10
        (fun _ => 11) [(Key.str "u", 0)] 0 (Key.str "u")
      = Except.ok (dictSet (dictDel [(Key.str "u", 0)] (Key.str "u")) (Key.str "v") 11,
          [Effect.warnTimeout (Key.str "u"),
           Effect.infoRecover (Key.str "u") (Key.str "v")], 1)
    ∧ dictGet (dictSet (dictDel [(Key.str "u", 0)] (Key.str "u")) (Key.str "v") 11)
        (Key.str "u") = none
    ∧ dictGet (dictSet (dictDel [(Key.str "u", 0)] (Key.str "u")) (Key.str "v") 11)
        (Key.str "v") = some 11 :=
  recovery_replaces_uid_and_restarts_clock
    ⟨some 5, 1, false, some (fun _ => some (Key.str "v")), 7⟩ 10 (fun _ => 11)
    [(Key.str "u", 0)] 0 (Key.str "u") (Key.str "v") (fun _ => some (Key.str "v"))
    5 0 rfl (by norm_num) (by simp [dictGet]) (by norm_num) rfl rfl (by decide)

/-- Helper: scanning a list of uids that have all (unrecoverably) timed
out emits each uid's full escalation in scan order and leaves the table
unchanged: no uid's processing is skipped because of an earlier uid's
escalation. -/
theorem scanUids_all_unrecoverable (cfg : Config) (now : ℚ) (clk : Nat → ℚ)
    (tmo : ℚ) (htmo : cfg.timeout = some tmo) (hnz : tmo ≠ 0)
    (hcb : cfg.termCb = none) (uidsL : List Key) :
    ∀ (st : Table) (effs : List Effect) (c : Nat),
      (∀ u ∈ uidsL, ∃ l, dictGet st u = some l ∧ now - l > tmo) →
      scanUids cfg now clk uidsL st effs c
        = Except.ok (st, effs ++ (uidsL.map (escalation cfg)).flatten, c) := by
  induction uidsL with
  | nil => intro st effs c _; simp [scanUids]
  | cons uid rest ih =>
    intro st effs c hall
    obtain ⟨l, hl, hel⟩ := hall uid (List.mem_cons_self _ _)
    rw [scanUids,
      tickUid_unrecoverable cfg now clk st c uid tmo l htmo hnz hl hel (Or.inl hcb)]
    dsimp only
    rw [ih st (effs ++ escalation cfg uid) c
      (fun u hu => hall u (List.mem_cons_of_mem _ hu))]
    simp

/-- C8: when several uids have timed out unrecoverably, a single tick
fully processes every one of them: the tick returns normally and its
effect trace is the concatenation, in snapshot order, of each uid's
complete two-stage escalation — a later uid's escalation follows an
earlier uid's `SIGKILL` instead of being skipped. -/
theorem tick_processes_every_timed_out_uid (cfg : Config) (now : ℚ)
    (clk : Nat → ℚ) (st : Table) (tmo : ℚ)
    (htmo : cfg.timeout = some tmo) (hnz : tmo ≠ 0) (hcb : cfg.termCb = none)
    (hall : ∀ u ∈ st.map Prod.fst, ∃ l, dictGet st u = some l ∧ now - l > tmo) :
    tick cfg now clk st
      = Except.ok (st,
          (Effect.sleepFor cfg.interval ::
            (if cfg.hasBeatCb then [Effect.beatCb] else []))
          ++ ((st.map Prod.fst).map (escalation cfg)).flatten) := by
  unfold tick
  rw [scanUids_all_unrecoverable cfg now clk tmo htmo hnz hcb
    (st.map Prod.fst) st [] 0 hall]
  simp

/-- Witness for C8: two uids, both timed out, both fully escalated
within the same tick, the second after the first's `SIGKILL`. -/
theorem tick_processes_every_timed_out_uid_witness :
    tick ⟨some 5, 2, false, none, 7⟩ 10 (fun _ => 10)
        [(Key.str "a", 0), (Key.str "b", 1)]
      = Except.ok ([(Key.str "a", 0), (Key.str "b", 1)],
          (Effect.sleepFor 2 :: (if false then [Effect.beatCb] else []))
          ++ ((([(Key.str "a", (0 : ℚ)), (Key.str "b", 1)].map Prod.fst).map
              (escalation ⟨some 5, 2, false, none, 7⟩)).flatten)) :=
  tick_processes_every_timed_out_uid ⟨some 5, 2, false, none, 7⟩ 10 (fun _ => 10)
    [(Key.str "a", 0), (Key.str "b", 1)] 5 rfl (by norm_num) rfl
    (by
      intro u hu
      simp only [List.map_cons, List.map_nil, List.mem_cons,
        List.not_mem_nil, or_false] at hu
      rcases hu with rfl | rfl
      · exact ⟨0, by simp [dictGet], by norm_num⟩
      · exact ⟨1, by simp [dictGet], by norm_num⟩)

/-- C1 (the code, evaluated): with `timeout = None`, any tick over a
nonempty timestamp table raises `TypeError`: `now - last > self._timeout`
compares a float with `None` before the `timeout`-falsy branch that
would treat the entity as alive can be reached.  The watcher thread dies
instead of completing the tick. -/
theorem none_timeout_tick_raises (cfg : Config) (now : ℚ) (clk : Nat → ℚ)
    (st : Table) (htmo : cfg.timeout = none) (hne : st ≠ []) :
    tick cfg now clk st = Except.error PyErr.typeError := by
  obtain ⟨p, rest, rfl⟩ : ∃ p rest, st = p :: rest := by
    cases st with
    | nil => exact absurd rfl hne
    | cons p rest => exact ⟨p, rest, rfl⟩
  have h1 : dictGet (p :: rest) p.1 = some p.2 := by simp [dictGet]
  simp [tick, scanUids, tickUid, h1, htmo]

/-- Witness for C1's evaluation: uid `'default'` last seen at 100, tick
at 200 with `timeout = None` raises `TypeError`. -/
theorem none_timeout_tick_raises_witness :
    tick ⟨none, 1, false, none, 7⟩ 200 (fun _ => 200) [(Key.str "default", 100)]
      = Except.error PyErr.typeError :=
  none_timeout_tick_raises ⟨none, 1, false, none, 7⟩ 200 (fun _ => 200)
    [(Key.str "default", 100)] rfl (by simp)

/-- C2 (the code, evaluated): a tick of `_watch` is entirely independent
of the monitor registry — `_watch` never reads `self._monitors`, so the
resulting table and the emitted effects are the same for any two
registries (in particular, a registered detector that would raise is
never invoked, and can never route its uid into the
recovery/termination protocol). -/
theorem tick_independent_of_monitor_registry (cfg : Config) (now : ℚ)
    (clk : Nat → ℚ) (ts : Table) (ms ms' : List (Key × MonitorArg)) :
    (tickFull cfg now clk ⟨ts, ms⟩).map (fun p => (p.1.tstamps, p.2))
      = (tickFull cfg now clk ⟨ts, ms'⟩).map (fun p => (p.1.tstamps, p.2)) := by
  unfold tickFull
  cases tick cfg now clk ts with
  | error e => rfl
  | ok v => cases v; rfl

/-- Helper: when every stored timestamp is truthy (which `beat` and the
recovery branch guarantee: they never store `0`), the truthiness test of
`wait_startup` is exactly "the uid has a table entry". -/
theorem tsTruthy_eq_not_isNone (d : Table) (hvals : ∀ p ∈ d, p.2 ≠ 0)
    (u : String) : tsTruthy d u = !(dictGet d (Key.str u)).isNone := by
  unfold tsTruthy
  cases h : dictGet d (Key.str u) with
  | none => rfl
  | some v =>
    have hv : v ≠ 0 := hvals (Key.str u, v) (dictGet_mem _ _ _ h)
    simp [hv]

/-- C7: under the invariant that stored timestamps are nonzero,
`wait_startup` returns `None` as soon as a poll finds every requested
uid present in the table; and when a poll runs after the (truthy)
timeout has elapsed, the call returns at that poll: `None` when all
requested uids are present, otherwise exactly the sublist of requested
uids that have no table entry.  No branch raises. -/
theorem wait_startup_returns_unseen_subset (d : Table) (uids : List String)
    (timeout : Option ℚ) (el : Nat → ℚ) (fuel k : Nat)
    (hvals : ∀ p ∈ d, p.2 ≠ 0) :
    ((∀ u ∈ uids, dictGet d (Key.str u) ≠ none) →
      wait_startup_loop d uids timeout el (fuel + 1) k = some none)
    ∧ (∀ t, timeout = some t → t ≠ 0 → el k > t →
        wait_startup_loop d uids timeout el (fuel + 1) k
          = some (if ∀ u ∈ uids, dictGet d (Key.str u) ≠ none then none
              else some (uids.filter (fun u => (dictGet d (Key.str u)).isNone)))) := by
  have hok : uids.filter (fun u => tsTruthy d u)
      = uids.filter (fun u => !(dictGet d (Key.str u)).isNone) :=
    List.filter_congr (fun u _ => tsTruthy_eq_not_isNone d hvals u)
  have hseenPoll : (∀ u ∈ uids, dictGet d (Key.str u) ≠ none) →
      waitPoll d uids timeout (el k) = WaitOutcome.allSeen := by
    intro hseen
    have hfe : uids.filter (fun u => !(dictGet d (Key.str u)).isNone) = uids := by
      refine List.filter_eq_self.mpr (fun u hu => ?_)
      cases hd : dictGet d (Key.str u) with
      | none => exact absurd hd (hseen u hu)
      | some v => rfl
    unfold waitPoll
    rw [hok, hfe]
    simp
  constructor
  · intro hseen
    rw [wait_startup_loop, hseenPoll hseen]
  · intro t ht ht0 hel
    by_cases hseen : ∀ u ∈ uids, dictGet d (Key.str u) ≠ none
    · rw [wait_startup_loop, hseenPoll hseen, if_pos hseen]
    · have hq : ∃ u ∈ uids, (dictGet d (Key.str u)).isNone = true := by
        push_neg at hseen
        obtain ⟨u, hu, hn⟩ := hseen
        exact ⟨u, hu, Option.isNone_iff_eq_none.mpr hn⟩
      have hlen : ¬ ((uids.filter (fun u => !(dictGet d (Key.str u)).isNone)).length
          = uids.length) := by
        intro hl
        have := (List.filter_sublist uids).eq_of_length hl
        obtain ⟨u, hu, hn⟩ := hq
        have := List.filter_eq_self.mp this u hu
        rw [hn] at this
        exact absurd this (by simp)
      have hhit : waitTimeoutHit timeout (el k) = true := by
        rw [ht]
        simp [waitTimeoutHit, ht0, hel]
      have hnok : uids.filter
            (fun u => decide (u ∉ uids.filter (fun w => tsTruthy d w)))
          = uids.filter (fun u => (dictGet d (Key.str u)).isNone) := by
        refine List.filter_congr (fun u hu => ?_)
        rw [hok]
        by_cases hn : (dictGet d (Key.str u)).isNone
        · simp [List.mem_filter, hu, hn]
        · simp [List.mem_filter, hu, hn]
      have hpoll : waitPoll d uids timeout (el k)
          = WaitOutcome.timedOut
              (uids.filter (fun u => (dictGet d (Key.str u)).isNone)) := by
        unfold waitPoll
        rw [hnok, hok, if_neg hlen, hhit, if_pos rfl]
      rw [wait_startup_loop, hpoll, if_neg hseen]

/-- Witness for C7 at a concrete input: `"a"` has beaten, `"b"` has
not, timeout 2 has elapsed (elapsed time 5): the call returns `["b"]`. -/
theorem wait_startup_returns_unseen_subset_witness :
    wait_startup_loop [(Key.str "a", 3)] ["a", "b"] (some 2) (fun _ => 5) 1 0
      = some (some ["b"]) := by
  have h := (wait_startup_returns_unseen_subset [(Key.str "a", 3)] ["a", "b"]
    (some 2) (fun _ => 5) 0 0 (by decide)).2 2 rfl (by norm_num) (by norm_num)
  rw [h]
  decide

/-- Witness for C10 at concrete inputs. -/
theorem beat_coerces_falsy_arguments_witness :
    beat [] 7 none none = dictSet [] (Key.str "default") 7
    ∧ beat [] 7 (some "u") (some 3) = dictSet [] (Key.str "u") 3 := by
  refine ⟨?_, ?_⟩
  · exact (beat_coerces_falsy_arguments [] 7 none none).1 (Or.inl rfl) (Or.inl rfl)
  · exact (beat_coerces_falsy_arguments [] 7 (some "u") (some 3)).2.2.2 "u" 3 rfl
      (by decide) rfl (by norm_num)

end Heartbeat
